import Mathlib

/-!
Verification of the money-machine core subsystem: the per-platform
token-bucket rate limiter (`RateLimiter`) and the compliance pre-check
pipeline (`ComplianceEngine`).

Shallow embedding conventions:
* JavaScript numbers are modelled as exact rationals (`ℚ`); the token
  counters are genuinely fractional (the burst trickle refill adds
  fractional amounts), so `ℚ` is the faithful carrier.
* `Date.now()` is modelled by an explicit `now : ℕ` (milliseconds)
  parameter threaded through every public operation.
* The `Map` of platform states is modelled as an association list with
  in-place replacement on key collision, mirroring `Map.set`.
* Logging calls are pure side effects on an external sink and are not
  modelled; they never influence the state transitions.
* The strict-mode `throw new ComplianceError(...)` is modelled by the
  `CheckOutcome.blocked` constructor carrying the aggregated result,
  mirroring exception-versus-return as a sum type.
-/

namespace MoneyMachine

/-- Association-list lookup, mirroring `Map.get` / object indexing. -/
def lookupKey {α : Type} : List (String × α) → String → Option α
  | [], _ => none
  | (k, v) :: rest, key => if k = key then some v else lookupKey rest key

/-- Association-list insert-or-replace, mirroring `Map.set` /
object property assignment (insertion order preserved). -/
def insertKey {α : Type} : List (String × α) → String → α → List (String × α)
  | [], key, value => [(key, value)]
  | (k, v) :: rest, key, value =>
      if k = key then (key, value) :: rest else (k, v) :: insertKey rest key value

/-- Per-platform rate ceilings (`limits` in the source). -/
structure Limits where
  requestsPerMinute : ℚ
  requestsPerHour : ℚ
  burstLimit : ℚ
deriving Repr, DecidableEq

/-- Current available token counts per window (`state.tokens`). -/
structure Tokens where
  minute : ℚ
  hour : ℚ
  burst : ℚ
deriving Repr, DecidableEq

/-- Timestamps of the last top-up per refillable window (`state.lastRefill`). -/
structure LastRefill where
  minute : ℕ
  hour : ℕ
deriving Repr, DecidableEq

/-- One platform's bucket state (`this.platforms.get(platform)`).
The source also stores an (always empty, never read) `queue` array,
omitted here. -/
structure PlatformState where
  limits : Limits
  tokens : Tokens
  lastRefill : LastRefill
deriving Repr, DecidableEq

/-- The whole rate limiter: platform-state map, per-platform overrides,
and the default limits installed by the constructor. -/
structure RateLimiter where
  platforms : List (String × PlatformState)
  platformLimits : List (String × Limits)
  defaultLimits : Limits
deriving Repr, DecidableEq

/-- `new RateLimiter(config)`: empty platform map, configured overrides,
and the hard-coded default limits 60/minute, 1000/hour, 10 burst. -/
def mkRateLimiter (platformLimits : List (String × Limits)) : RateLimiter :=
  { platforms := []
    platformLimits := platformLimits
    defaultLimits :=
      { requestsPerMinute := 60, requestsPerHour := 1000, burstLimit := 10 } }

/-- `getPlatformState(platform)`: return the existing state or create one
seeded with the override (if any) or the default limits, all token
counters full, both refill stamps at the current instant. -/
def getPlatformState (rl : RateLimiter) (now : ℕ) (platform : String) :
    PlatformState × RateLimiter :=
  match lookupKey rl.platforms platform with
  | some s => (s, rl)
  | none =>
      let limits := (lookupKey rl.platformLimits platform).getD rl.defaultLimits
      let s : PlatformState :=
        { limits := limits
          tokens :=
            { minute := limits.requestsPerMinute
              hour := limits.requestsPerHour
              burst := limits.burstLimit }
          lastRefill := { minute := now, hour := now } }
      (s, { rl with platforms := insertKey rl.platforms platform s })

/-- Minute-window block of `refillTokens`: whole-minute-boundary gated,
floored linear credit, capped at the per-minute ceiling. -/
def refillMinute (now : ℕ) (s : PlatformState) : PlatformState :=
  let minutesSince : ℚ := ((now : ℚ) - (s.lastRefill.minute : ℚ)) / 60000
  if minutesSince ≥ 1 then
    let refillAmount : ℚ := ((⌊minutesSince * s.limits.requestsPerMinute⌋ : ℤ) : ℚ)
    { s with
        tokens := { s.tokens with
          minute := min s.limits.requestsPerMinute (s.tokens.minute + refillAmount) }
        lastRefill := { s.lastRefill with minute := now } }
  else s

/-- Hour-window block of `refillTokens`, symmetric at 3600000 ms. -/
def refillHour (now : ℕ) (s : PlatformState) : PlatformState :=
  let hoursSince : ℚ := ((now : ℚ) - (s.lastRefill.hour : ℚ)) / 3600000
  if hoursSince ≥ 1 then
    let refillAmount : ℚ := ((⌊hoursSince * s.limits.requestsPerHour⌋ : ℤ) : ℚ)
    { s with
        tokens := { s.tokens with
          hour := min s.limits.requestsPerHour (s.tokens.hour + refillAmount) }
        lastRefill := { s.lastRefill with hour := now } }
  else s

/-- Burst block of `refillTokens`: fractional trickle at `burstLimit / 300`
per elapsed minute, only applied while below the ceiling. `minutesSince`
is the value computed at the top of `refillTokens` from the pre-call
`lastRefill.minute` (the cross-window coupling of the source). -/
def refillBurst (minutesSince : ℚ) (s : PlatformState) : PlatformState :=
  if s.tokens.burst < s.limits.burstLimit then
    let burstRefillRate : ℚ := s.limits.burstLimit / 300
    let burstRefill : ℚ := minutesSince * burstRefillRate
    { s with
        tokens := { s.tokens with
          burst := min s.limits.burstLimit (s.tokens.burst + burstRefill) } }
  else s

/-- `refillTokens(state)`: minute block, then hour block, then burst
trickle; the burst trickle reuses the `minutesSince` computed before the
minute block possibly resets `lastRefill.minute`. -/
def refillTokens (now : ℕ) (s : PlatformState) : PlatformState :=
  let minutesSince : ℚ := ((now : ℚ) - (s.lastRefill.minute : ℚ)) / 60000
  refillBurst minutesSince (refillHour now (refillMinute now s))

/-- `acquireToken(platform, actionType)`: refill, then all-or-nothing
debit of one token from each of the three windows, admitted only when
all three counters are strictly positive. The `actionType` argument is
used only for logging and is omitted. -/
def acquireToken (rl : RateLimiter) (now : ℕ) (platform : String) :
    Bool × RateLimiter :=
  let fetched := getPlatformState rl now platform
  let s := refillTokens now fetched.1
  if 0 < s.tokens.minute ∧ 0 < s.tokens.hour ∧ 0 < s.tokens.burst then
    let s1 := { s with tokens :=
      { minute := s.tokens.minute - 1
        hour := s.tokens.hour - 1
        burst := s.tokens.burst - 1 } }
    (true, { fetched.2 with platforms := insertKey fetched.2.platforms platform s1 })
  else
    (false, { fetched.2 with platforms := insertKey fetched.2.platforms platform s })

/-- `releaseToken(platform, actionType)`: unconditional +1 credit to each
window, clamped at each ceiling; no refill is performed. -/
def releaseToken (rl : RateLimiter) (now : ℕ) (platform : String) : RateLimiter :=
  let fetched := getPlatformState rl now platform
  let s := fetched.1
  let s1 := { s with tokens :=
    { minute := min s.limits.requestsPerMinute (s.tokens.minute + 1)
      hour := min s.limits.requestsPerHour (s.tokens.hour + 1)
      burst := min s.limits.burstLimit (s.tokens.burst + 1) } }
  { fetched.2 with platforms := insertKey fetched.2.platforms platform s1 }

/-- `getRemainingQuota(platform)`: refill, store the refilled state back,
and return a snapshot of the token counters. -/
def getRemainingQuota (rl : RateLimiter) (now : ℕ) (platform : String) :
    Tokens × RateLimiter :=
  let fetched := getPlatformState rl now platform
  let s := refillTokens now fetched.1
  (s.tokens, { fetched.2 with platforms := insertKey fetched.2.platforms platform s })

/-- Partial update object accepted by `setPlatformLimits`: JavaScript
callers may supply any subset of the three limit fields. -/
structure LimitsPatch where
  requestsPerMinute : Option ℚ := none
  requestsPerHour : Option ℚ := none
  burstLimit : Option ℚ := none
deriving Repr, DecidableEq

/-- Spread-merge of a patch over a base, mirroring
`\x7b ...this.defaultLimits, ...limits \x7d`. -/
def mergeLimits (base : Limits) (patch : LimitsPatch) : Limits :=
  { requestsPerMinute := patch.requestsPerMinute.getD base.requestsPerMinute
    requestsPerHour := patch.requestsPerHour.getD base.requestsPerHour
    burstLimit := patch.burstLimit.getD base.burstLimit }

/-- `setPlatformLimits(platform, limits)`: store the patch merged over the
default limits as the platform's override, and if a live state exists for
that platform replace its limits in place, leaving the token counters and
refill stamps untouched. -/
def setPlatformLimits (rl : RateLimiter) (platform : String) (limits : LimitsPatch) :
    RateLimiter :=
  let merged := mergeLimits rl.defaultLimits limits
  let rl1 := { rl with platformLimits := insertKey rl.platformLimits platform merged }
  match lookupKey rl1.platforms platform with
  | some s =>
      { rl1 with platforms := insertKey rl1.platforms platform { s with limits := merged } }
  | none => rl1

/-- The per-platform record reported by `getStats`. -/
structure PlatformReport where
  limits : Limits
  remaining : Tokens
  lastRefill : LastRefill
deriving Repr, DecidableEq

/-- `getStats()`: refill every tracked platform's state in place, then
report each platform's limits, remaining tokens and refill stamps. -/
def getStats (rl : RateLimiter) (now : ℕ) :
    List (String × PlatformReport) × RateLimiter :=
  let platforms := rl.platforms.map (fun e => (e.1, refillTokens now e.2))
  (platforms.map (fun e =>
      (e.1, { limits := e.2.limits
              remaining := e.2.tokens
              lastRefill := e.2.lastRefill })),
   { rl with platforms := platforms })

/-- `reset()`: clear the platform-state map unconditionally; overrides and
defaults survive. -/
def RateLimiter.reset (rl : RateLimiter) : RateLimiter :=
  { rl with platforms := [] }

/-- Caller-supplied action descriptor: the `type` tag plus the free-form
boolean flags the checks inspect (absent JavaScript fields are falsy,
modelled as `false`). -/
structure Action where
  type : String
  fraudulent : Bool := false
  userConsent : Bool := false
  automated : Bool := false
  personalResponse : Bool := false
  affiliate : Bool := false
  sponsored : Bool := false
  hasDisclosure : Bool := false
deriving Repr, DecidableEq

/-- Action context: the optional platform key. -/
structure Context where
  platform : Option String := none
deriving Repr, DecidableEq

/-- Boolean rule flags attached to a known platform in `loadRules()`. -/
structure PlatformRuleSet where
  requiresUserAgent : Bool := false
  noAutomatedAccounts : Bool := false
  rateLimit : Bool := false
  oneAccountPerPerson : Bool := false
  noAutomatedCommunication : Bool := false
  deliverAsDescribed : Bool := false
  realIndividualsOnly : Bool := false
  noAutomatedBidding : Bool := false
  personalCommunication : Bool := false
deriving Repr, DecidableEq

/-- The static `rules.platforms` table from `loadRules()`: github, fiverr
and upwork are known, every other platform is absent. -/
def platformRuleTable (platform : String) : Option PlatformRuleSet :=
  if platform = "github" then
    some { requiresUserAgent := true, noAutomatedAccounts := true, rateLimit := true }
  else if platform = "fiverr" then
    some { oneAccountPerPerson := true, noAutomatedCommunication := true,
           deliverAsDescribed := true }
  else if platform = "upwork" then
    some { realIndividualsOnly := true, noAutomatedBidding := true,
           personalCommunication := true }
  else none

/-- One pipeline stage's outcome. Stages that attach no `violations`,
`note` or `remaining` field in the source leave the defaults here. -/
structure ComplianceCheck where
  category : String
  passed : Bool
  violations : List String := []
  note : Option String := none
  remaining : Option Tokens := none
deriving Repr, DecidableEq

/-- `checkLegal(action)`: flags unauthorized access, fraud (by type or
flag) and unconsented spam; pure in the action. -/
def checkLegal (action : Action) : ComplianceCheck :=
  let violations :=
    (if action.type = "unauthorized-access" then
        ["Unauthorized access is illegal"] else []) ++
    (if action.type = "fraud" ∨ action.fraudulent then
        ["Fraudulent activity is illegal"] else []) ++
    (if action.type = "spam" ∧ ¬ action.userConsent then
        ["Spam without consent violates anti-spam laws"] else [])
  { category := "legal"
    passed := violations.length = 0
    violations := violations }

/-- `checkPlatformRules(platform, action)`: unknown platforms pass with an
advisory note; known platforms are checked against their two enforced
flags (automated communication, automated bidding). -/
def checkPlatformRules (platform : String) (action : Action) : ComplianceCheck :=
  match platformRuleTable platform with
  | none =>
      { category := "platform"
        passed := true
        violations := []
        note := some ("No specific rules loaded for " ++ platform) }
  | some rules =>
      let violations :=
        (if rules.noAutomatedCommunication ∧ action.type = "send-message" ∧
            ¬ action.personalResponse then
            [platform ++ " requires personal communication, not automated"] else []) ++
        (if rules.noAutomatedBidding ∧ action.type = "submit-proposal" ∧
            action.automated then
            [platform ++ " does not allow automated bidding"] else [])
      { category := "platform"
        passed := violations.length = 0
        violations := violations }

/-- `checkRateLimit(platform, actionType)`: delegate to `acquireToken`;
a refusal is reported as a failed check carrying the remaining-quota
snapshot, never as an exception. -/
def checkRateLimit (rlOpt : Option RateLimiter) (now : ℕ) (platform : String) :
    ComplianceCheck × Option RateLimiter :=
  match rlOpt with
  | none =>
      ({ category := "rateLimit"
         passed := true
         note := some "No rate limiter configured" }, none)
  | some rl =>
      let acquired := acquireToken rl now platform
      if acquired.1 then
        ({ category := "rateLimit", passed := true }, some acquired.2)
      else
        let quota := getRemainingQuota acquired.2 now platform
        ({ category := "rateLimit"
           passed := false
           violations := ["Rate limit exceeded"]
           remaining := some quota.1 }, some quota.2)

/-- `requiresDisclosure(action)`: affiliate or sponsored content by type
or by flag. -/
def requiresDisclosure (action : Action) : Bool :=
  action.type = "post-affiliate-link" || action.type = "sponsored-content" ||
    action.affiliate || action.sponsored

/-- `checkDisclosure(action)`: fails when disclosure is required but the
`hasDisclosure` flag is absent. -/
def checkDisclosure (action : Action) : ComplianceCheck :=
  let violations :=
    if requiresDisclosure action ∧ ¬ action.hasDisclosure then
      ["Required disclosure missing for affiliate/sponsored content"] else []
  { category := "disclosure"
    passed := violations.length = 0
    violations := violations }

/-- Aggregate verdict for one action (`ComplianceResult`); the source
timestamp `new Date().toISOString()` is modelled by the numeric instant. -/
structure ComplianceResult where
  passed : Bool
  checks : List ComplianceCheck
  action : String
  timestamp : ℕ
deriving Repr, DecidableEq

/-- The compliance engine's mutable state: mode flag, the optional rate
limiter it owns a reference to, and the append-only violations log. The
static rule table is the global `platformRuleTable`. -/
structure ComplianceEngine where
  strictMode : Bool
  rateLimiter : Option RateLimiter
  violations : List ComplianceResult
deriving Repr, DecidableEq

/-- Outcome of `checkAction`: `ok` models a normal return, `blocked`
models the strict-mode `throw new ComplianceError(message, result)` —
both carry the full aggregated result. -/
inductive CheckOutcome where
  | ok (result : ComplianceResult)
  | blocked (result : ComplianceResult)
deriving Repr, DecidableEq

/-- The aggregated result carried by either outcome. -/
def CheckOutcome.result : CheckOutcome → ComplianceResult
  | .ok r => r
  | .blocked r => r

/-- Whether the outcome is the strict-mode blocking error. -/
def CheckOutcome.isBlocked : CheckOutcome → Bool
  | .ok _ => false
  | .blocked _ => true

/-- `checkAction(action, context)`: run the fixed pipeline (legal always;
platform rules and rate limit gated on `context.platform` — the latter
also on a configured limiter; disclosure gated on `requiresDisclosure`),
aggregate with AND over the checks that ran, log the result on failure,
and in strict mode raise the blocking error after aggregation. -/
def checkAction (e : ComplianceEngine) (now : ℕ) (action : Action) (ctx : Context) :
    CheckOutcome × ComplianceEngine :=
  let checks1 := [checkLegal action]
  let checks2 :=
    match ctx.platform with
    | some p => checks1 ++ [checkPlatformRules p action]
    | none => checks1
  let stage3 :=
    match ctx.platform, e.rateLimiter with
    | some p, some rl =>
        let rlCheck := checkRateLimit (some rl) now p
        (checks2 ++ [rlCheck.1], rlCheck.2)
    | _, _ => (checks2, e.rateLimiter)
  let checks :=
    if requiresDisclosure action then stage3.1 ++ [checkDisclosure action]
    else stage3.1
  let allPassed := checks.all (fun c => c.passed)
  let result : ComplianceResult :=
    { passed := allPassed, checks := checks, action := action.type, timestamp := now }
  if allPassed then
    (.ok result, { e with rateLimiter := stage3.2 })
  else
    let e1 := { e with rateLimiter := stage3.2, violations := e.violations ++ [result] }
    if e.strictMode then (.blocked result, e1) else (.ok result, e1)

/-- Snapshot returned by `generateComplianceReport()`. -/
structure ComplianceReport where
  totalViolations : ℕ
  violations : List ComplianceResult
  generatedAt : ℕ
deriving Repr, DecidableEq

/-- `generateComplianceReport()`: count, copy of the log, timestamp. -/
def generateComplianceReport (e : ComplianceEngine) (now : ℕ) : ComplianceReport :=
  { totalViolations := e.violations.length
    violations := e.violations
    generatedAt := now }

/-- One observable rate-limiter operation, tagged with the wall-clock
instant at which it runs (`reset` reads no clock). -/
inductive Op where
  | acquire (now : ℕ) (platform : String)
  | release (now : ℕ) (platform : String)
  | quota (now : ℕ) (platform : String)
  | stats (now : ℕ)
  | reset
deriving Repr, DecidableEq

/-- The instant an operation runs at, when it reads the clock. -/
def opTime : Op → Option ℕ
  | .acquire now _ => some now
  | .release now _ => some now
  | .quota now _ => some now
  | .stats now => some now
  | .reset => none

/-- State transition of one operation (result values discarded). -/
def applyOp (rl : RateLimiter) : Op → RateLimiter
  | .acquire now p => (acquireToken rl now p).2
  | .release now p => releaseToken rl now p
  | .quota now p => (getRemainingQuota rl now p).2
  | .stats now => (getStats rl now).2
  | .reset => RateLimiter.reset rl

/-- Run a sequence of operations left to right. -/
def runOps (rl : RateLimiter) : List Op → RateLimiter
  | [] => rl
  | op :: rest => runOps (applyOp rl op) rest

/-- The clock is monotone along the sequence, starting no earlier
than `t`. -/
def timeOrdered (t : ℕ) : List Op → Prop
  | [] => True
  | op :: rest =>
      match opTime op with
      | some n => t ≤ n ∧ timeOrdered n rest
      | none => timeOrdered t rest

/-- The clock value after running the sequence from instant `t`. -/
def endTime (t : ℕ) : List Op → ℕ
  | [] => t
  | op :: rest => endTime ((opTime op).getD t) rest

/-- A rational that is a natural number: the form every limit and every
minute/hour counter keeps under integer-limit configurations. -/
def NatVal (q : ℚ) : Prop := ∃ n : ℕ, q = (n : ℚ)

/-- All three limit fields are natural numbers (true of the defaults
60/1000/10 and of any integer-configured override). -/
def NatLimits (l : Limits) : Prop :=
  NatVal l.requestsPerMinute ∧ NatVal l.requestsPerHour ∧ NatVal l.burstLimit

/-- Reachable-state invariant of one platform state at instant `t`:
integer limits, refill stamps in the past, minute and hour counters
natural-valued and capped, burst counter capped and strictly above -1. -/
def StateInv (t : ℕ) (s : PlatformState) : Prop :=
  NatLimits s.limits ∧
  s.lastRefill.minute ≤ t ∧ s.lastRefill.hour ≤ t ∧
  NatVal s.tokens.minute ∧ s.tokens.minute ≤ s.limits.requestsPerMinute ∧
  NatVal s.tokens.hour ∧ s.tokens.hour ≤ s.limits.requestsPerHour ∧
  (-1 : ℚ) < s.tokens.burst ∧ s.tokens.burst ≤ s.limits.burstLimit

/-- Reachable-limiter invariant at instant `t`: integer default limits
and overrides, and every tracked platform state satisfies `StateInv`. -/
def LimiterInv (t : ℕ) (rl : RateLimiter) : Prop :=
  NatLimits rl.defaultLimits ∧
  (∀ e ∈ rl.platformLimits, NatLimits e.2) ∧
  (∀ e ∈ rl.platforms, StateInv t e.2)

lemma lookupKey_mem {α : Type} {l : List (String × α)} {k : String} {v : α}
    (h : lookupKey l k = some v) : (k, v) ∈ l := by
  induction l with
  | nil => simp [lookupKey] at h
  | cons e rest ih =>
      obtain ⟨k1, v1⟩ := e
      by_cases hk : k1 = k
      · subst hk
        simp [lookupKey] at h
        subst h
        exact List.mem_cons_self _ _
      · simp [lookupKey, hk] at h
        exact List.mem_cons_of_mem _ (ih h)

lemma mem_insertKey {α : Type} {l : List (String × α)} {k : String} {v : α}
    {e : String × α} (h : e ∈ insertKey l k v) : e = (k, v) ∨ e ∈ l := by
  induction l with
  | nil => simpa [insertKey] using h
  | cons e1 rest ih =>
      obtain ⟨k1, v1⟩ := e1
      by_cases hk : k1 = k
      · subst hk
        simp [insertKey] at h
        rcases h with h | h
        · exact Or.inl h
        · exact Or.inr (List.mem_cons_of_mem _ h)
      · simp [insertKey, hk] at h
        rcases h with h | h
        · exact Or.inr (by simp [h])
        · rcases ih h with h1 | h1
          · exact Or.inl h1
          · exact Or.inr (List.mem_cons_of_mem _ h1)

lemma lookupKey_insertKey_self {α : Type} (l : List (String × α)) (k : String) (v : α) :
    lookupKey (insertKey l k v) k = some v := by
  induction l with
  | nil => simp [insertKey, lookupKey]
  | cons e rest ih =>
      obtain ⟨k1, v1⟩ := e
      by_cases hk : k1 = k
      · subst hk
        simp [insertKey, lookupKey]
      · simp [insertKey, lookupKey, hk, ih]

lemma natVal_nonneg {q : ℚ} (h : NatVal q) : 0 ≤ q := by
  obtain ⟨n, rfl⟩ := h
  exact_mod_cast Nat.zero_le n

lemma natVal_add {a b : ℚ} (ha : NatVal a) (hb : NatVal b) : NatVal (a + b) := by
  obtain ⟨m, rfl⟩ := ha
  obtain ⟨n, rfl⟩ := hb
  exact ⟨m + n, by push_cast; ring⟩

lemma natVal_min {a b : ℚ} (ha : NatVal a) (hb : NatVal b) : NatVal (min a b) := by
  obtain ⟨m, rfl⟩ := ha
  obtain ⟨n, rfl⟩ := hb
  exact ⟨min m n, by push_cast [Nat.cast_min]; rfl⟩

lemma natVal_floorCast {q : ℚ} (h : 0 ≤ q) : NatVal ((⌊q⌋ : ℤ) : ℚ) := by
  have h0 : (0 : ℤ) ≤ ⌊q⌋ := Int.floor_nonneg.mpr h
  exact ⟨⌊q⌋.toNat, by exact_mod_cast (Int.toNat_of_nonneg h0).symm⟩

lemma natVal_sub_one {a : ℚ} (ha : NatVal a) (hpos : 0 < a) : NatVal (a - 1) := by
  obtain ⟨n, rfl⟩ := ha
  have hn : 1 ≤ n := by
    by_contra hn
    push_neg at hn
    interval_cases n
    simp at hpos
  exact ⟨n - 1, by push_cast [hn]; ring⟩

lemma natVal_pos_ge_one {a : ℚ} (ha : NatVal a) (hpos : 0 < a) : 1 ≤ a := by
  obtain ⟨n, rfl⟩ := ha
  have hn : 1 ≤ n := by
    by_contra hn
    push_neg at hn
    interval_cases n
    simp at hpos
  exact_mod_cast hn

lemma stateInv_mono {t t' : ℕ} (h : t ≤ t') {s : PlatformState} (hs : StateInv t s) :
    StateInv t' s :=
  ⟨hs.1, le_trans hs.2.1 h, le_trans hs.2.2.1 h, hs.2.2.2.1, hs.2.2.2.2.1,
   hs.2.2.2.2.2.1, hs.2.2.2.2.2.2.1, hs.2.2.2.2.2.2.2.1, hs.2.2.2.2.2.2.2.2⟩

lemma limiterInv_mono {t t' : ℕ} (h : t ≤ t') {rl : RateLimiter}
    (hrl : LimiterInv t rl) : LimiterInv t' rl :=
  ⟨hrl.1, hrl.2.1, fun e he => stateInv_mono h (hrl.2.2 e he)⟩

lemma refillMinute_stateInv {now : ℕ} {s : PlatformState} (hs : StateInv now s) :
    StateInv now (refillMinute now s) := by
  obtain ⟨hlim, hlm, hlh, hnm, hm, hnh, hh, hb1, hb2⟩ := hs
  simp only [refillMinute]
  split
  next hcond =>
    have hms : (0 : ℚ) ≤ ((now : ℚ) - (s.lastRefill.minute : ℚ)) / 60000 :=
      le_trans zero_le_one hcond
    exact ⟨hlim, le_refl now, hlh,
      natVal_min hlim.1
        (natVal_add hnm (natVal_floorCast (mul_nonneg hms (natVal_nonneg hlim.1)))),
      min_le_left _ _, hnh, hh, hb1, hb2⟩
  next =>
    exact ⟨hlim, hlm, hlh, hnm, hm, hnh, hh, hb1, hb2⟩

lemma refillHour_stateInv {now : ℕ} {s : PlatformState} (hs : StateInv now s) :
    StateInv now (refillHour now s) := by
  obtain ⟨hlim, hlm, hlh, hnm, hm, hnh, hh, hb1, hb2⟩ := hs
  simp only [refillHour]
  split
  next hcond =>
    have hhs : (0 : ℚ) ≤ ((now : ℚ) - (s.lastRefill.hour : ℚ)) / 3600000 :=
      le_trans zero_le_one hcond
    exact ⟨hlim, hlm, le_refl now, hnm, hm,
      natVal_min hlim.2.1
        (natVal_add hnh (natVal_floorCast (mul_nonneg hhs (natVal_nonneg hlim.2.1)))),
      min_le_left _ _, hb1, hb2⟩
  next =>
    exact ⟨hlim, hlm, hlh, hnm, hm, hnh, hh, hb1, hb2⟩

lemma refillBurst_stateInv {ms : ℚ} (hms : 0 ≤ ms) {t : ℕ} {s : PlatformState}
    (hs : StateInv t s) : StateInv t (refillBurst ms s) := by
  obtain ⟨hlim, hlm, hlh, hnm, hm, hnh, hh, hb1, hb2⟩ := hs
  simp only [refillBurst]
  split
  next =>
    have hL : (0 : ℚ) ≤ s.limits.burstLimit := natVal_nonneg hlim.2.2
    have hrate : (0 : ℚ) ≤ ms * (s.limits.burstLimit / 300) :=
      mul_nonneg hms (div_nonneg hL (by norm_num))
    refine ⟨hlim, hlm, hlh, hnm, hm, hnh, hh, ?_, min_le_left _ _⟩
    exact lt_min (lt_of_lt_of_le (by norm_num) hL)
      (lt_of_lt_of_le hb1 (le_add_of_nonneg_right hrate))
  next =>
    exact ⟨hlim, hlm, hlh, hnm, hm, hnh, hh, hb1, hb2⟩

lemma refillTokens_stateInv {now : ℕ} {s : PlatformState} (hs : StateInv now s) :
    StateInv now (refillTokens now s) := by
  have hms : (0 : ℚ) ≤ ((now : ℚ) - (s.lastRefill.minute : ℚ)) / 60000 := by
    apply div_nonneg _ (by norm_num)
    rw [sub_nonneg]
    exact_mod_cast hs.2.1
  simp only [refillTokens]
  exact refillBurst_stateInv hms (refillHour_stateInv (refillMinute_stateInv hs))

lemma limiterInv_insert {t : ℕ} {rl : RateLimiter} {p : String} {s : PlatformState}
    (h : LimiterInv t rl) (hs : StateInv t s) :
    LimiterInv t { rl with platforms := insertKey rl.platforms p s } := by
  refine ⟨h.1, h.2.1, fun e he => ?_⟩
  rcases mem_insertKey he with rfl | hm
  · exact hs
  · exact h.2.2 e hm

lemma getPlatformState_inv {rl : RateLimiter} {now : ℕ} {p : String}
    (h : LimiterInv now rl) :
    StateInv now (getPlatformState rl now p).1 ∧
    LimiterInv now (getPlatformState rl now p).2 := by
  obtain ⟨hdef, hover, hplat⟩ := h
  have hL : NatLimits ((lookupKey rl.platformLimits p).getD rl.defaultLimits) := by
    cases ho : lookupKey rl.platformLimits p with
    | some l => simpa using hover _ (lookupKey_mem ho)
    | none => simpa using hdef
  simp only [getPlatformState]
  cases hl : lookupKey rl.platforms p with
  | some s =>
      exact ⟨hplat _ (lookupKey_mem hl), hdef, hover, hplat⟩
  | none =>
      have hfresh : StateInv now
          { limits := (lookupKey rl.platformLimits p).getD rl.defaultLimits
            tokens :=
              { minute := ((lookupKey rl.platformLimits p).getD rl.defaultLimits).requestsPerMinute
                hour := ((lookupKey rl.platformLimits p).getD rl.defaultLimits).requestsPerHour
                burst := ((lookupKey rl.platformLimits p).getD rl.defaultLimits).burstLimit }
            lastRefill := { minute := now, hour := now } } :=
        ⟨hL, le_refl now, le_refl now, hL.1, le_refl _, hL.2.1, le_refl _,
         lt_of_lt_of_le (by norm_num) (natVal_nonneg hL.2.2), le_refl _⟩
      exact ⟨hfresh, limiterInv_insert ⟨hdef, hover, hplat⟩ hfresh⟩

lemma acquireToken_limiterInv {rl : RateLimiter} {now : ℕ} {p : String}
    (h : LimiterInv now rl) : LimiterInv now (acquireToken rl now p).2 := by
  obtain ⟨hsi, hli⟩ := getPlatformState_inv (p := p) h
  have hsr := refillTokens_stateInv hsi
  simp only [acquireToken]
  split
  next hcond =>
    refine limiterInv_insert hli ?_
    obtain ⟨hlim, hlm, hlh, hnm, hm, hnh, hh, hb1, hb2⟩ := hsr
    obtain ⟨hc1, hc2, hc3⟩ := hcond
    exact ⟨hlim, hlm, hlh, natVal_sub_one hnm hc1,
      le_trans (sub_le_self _ zero_le_one) hm,
      natVal_sub_one hnh hc2, le_trans (sub_le_self _ zero_le_one) hh,
      by dsimp only; linarith, le_trans (sub_le_self _ zero_le_one) hb2⟩
  next =>
    exact limiterInv_insert hli hsr

lemma releaseToken_limiterInv {rl : RateLimiter} {now : ℕ} {p : String}
    (h : LimiterInv now rl) : LimiterInv now (releaseToken rl now p) := by
  obtain ⟨hsi, hli⟩ := getPlatformState_inv (p := p) h
  simp only [releaseToken]
  refine limiterInv_insert hli ?_
  obtain ⟨hlim, hlm, hlh, hnm, hm, hnh, hh, hb1, hb2⟩ := hsi
  have one : NatVal (1 : ℚ) := ⟨1, by norm_num⟩
  exact ⟨hlim, hlm, hlh, natVal_min hlim.1 (natVal_add hnm one), min_le_left _ _,
    natVal_min hlim.2.1 (natVal_add hnh one), min_le_left _ _,
    lt_min (lt_of_lt_of_le (by norm_num) (natVal_nonneg hlim.2.2)) (by linarith),
    min_le_left _ _⟩

lemma getRemainingQuota_limiterInv {rl : RateLimiter} {now : ℕ} {p : String}
    (h : LimiterInv now rl) : LimiterInv now (getRemainingQuota rl now p).2 := by
  obtain ⟨hsi, hli⟩ := getPlatformState_inv (p := p) h
  simp only [getRemainingQuota]
  exact limiterInv_insert hli (refillTokens_stateInv hsi)

lemma getStats_limiterInv {rl : RateLimiter} {now : ℕ}
    (h : LimiterInv now rl) : LimiterInv now (getStats rl now).2 := by
  refine ⟨h.1, h.2.1, fun e he => ?_⟩
  simp only [getStats, List.mem_map] at he
  obtain ⟨e1, he1, rfl⟩ := he
  exact refillTokens_stateInv (h.2.2 e1 he1)

lemma reset_limiterInv {rl : RateLimiter} {t : ℕ} (h : LimiterInv t rl) :
    LimiterInv t rl.reset :=
  ⟨h.1, h.2.1, by simp [RateLimiter.reset]⟩

lemma runOps_limiterInv {ops : List Op} {t : ℕ} {rl : RateLimiter}
    (h : LimiterInv t rl) (ho : timeOrdered t ops) :
    LimiterInv (endTime t ops) (runOps rl ops) := by
  induction ops generalizing t rl with
  | nil => simpa [runOps, endTime] using h
  | cons op rest ih =>
      cases op with
      | acquire now p =>
          simp only [timeOrdered, opTime] at ho
          obtain ⟨hle, ho2⟩ := ho
          simp only [runOps, endTime, applyOp, opTime, Option.getD]
          exact ih (acquireToken_limiterInv (limiterInv_mono hle h)) ho2
      | release now p =>
          simp only [timeOrdered, opTime] at ho
          obtain ⟨hle, ho2⟩ := ho
          simp only [runOps, endTime, applyOp, opTime, Option.getD]
          exact ih (releaseToken_limiterInv (limiterInv_mono hle h)) ho2
      | quota now p =>
          simp only [timeOrdered, opTime] at ho
          obtain ⟨hle, ho2⟩ := ho
          simp only [runOps, endTime, applyOp, opTime, Option.getD]
          exact ih (getRemainingQuota_limiterInv (limiterInv_mono hle h)) ho2
      | stats now =>
          simp only [timeOrdered, opTime] at ho
          obtain ⟨hle, ho2⟩ := ho
          simp only [runOps, endTime, applyOp, opTime, Option.getD]
          exact ih (getStats_limiterInv (limiterInv_mono hle h)) ho2
      | reset =>
          simp only [timeOrdered, opTime] at ho
          simp only [runOps, endTime, applyOp, opTime, Option.getD]
          exact ih (reset_limiterInv h) ho

/-- C1, counterexample: the claimed invariant `0 <= tokens.X <= limits.X`
fails for the burst window. With limits 60/minute, 1000/hour, burst 1, the
sequence acquire at 0 ms, acquire at 30000 ms (admitted on a fractional
burst credit of 1/600 and debited a whole 1) leaves the burst counter
negative, and the post-refill snapshot `getRemainingQuota` still
observes it below zero. -/
theorem c1_invariant_counterexample :
    (getRemainingQuota
        (runOps
          (mkRateLimiter
            [("p", { requestsPerMinute := 60, requestsPerHour := 1000, burstLimit := 1 })])
          [Op.acquire 0 "p", Op.acquire 30000 "p"])
        30000 "p").1.burst < 0 := by
  norm_num [runOps, applyOp, acquireToken, getPlatformState, getRemainingQuota,
    mkRateLimiter, lookupKey, insertKey, refillTokens, refillMinute, refillHour,
    refillBurst]

/-- C1 (amended): for every platform and every clock-monotone sequence of
rate-limiter operations (acquireToken, releaseToken, getRemainingQuota,
getStats, reset) from a state satisfying the reachable-limiter invariant,
every tracked platform state at every observation point satisfies
`0 <= tokens.X <= limits.X` for X in minute and hour, while the burst
counter satisfies only `-1 < tokens.burst <= limits.burst` (it can be
driven into (-1, 0) by a whole-token debit admitted on a fractional
balance). -/
theorem c1_token_bounds_after_ops (t : ℕ) (rl : RateLimiter) (ops : List Op)
    (hInv : LimiterInv t rl) (hOrd : timeOrdered t ops) :
    ∀ e ∈ (runOps rl ops).platforms,
      (0 ≤ e.2.tokens.minute ∧ e.2.tokens.minute ≤ e.2.limits.requestsPerMinute) ∧
      (0 ≤ e.2.tokens.hour ∧ e.2.tokens.hour ≤ e.2.limits.requestsPerHour) ∧
      ((-1 : ℚ) < e.2.tokens.burst ∧ e.2.tokens.burst ≤ e.2.limits.burstLimit) := by
  intro e he
  have h := (runOps_limiterInv hInv hOrd).2.2 e he
  exact ⟨⟨natVal_nonneg h.2.2.2.1, h.2.2.2.2.1⟩,
    ⟨natVal_nonneg h.2.2.2.2.2.1, h.2.2.2.2.2.2.1⟩,
    ⟨h.2.2.2.2.2.2.2.1, h.2.2.2.2.2.2.2.2⟩⟩

/-- Witness for C1 (amended) at the fresh limiter and a concrete
two-operation schedule. -/
theorem c1_token_bounds_after_ops_witness :
    LimiterInv 0 (mkRateLimiter []) ∧
    timeOrdered 0 [Op.acquire 0 "p", Op.quota 61000 "p"] ∧
    ∀ e ∈ (runOps (mkRateLimiter []) [Op.acquire 0 "p", Op.quota 61000 "p"]).platforms,
      (0 ≤ e.2.tokens.minute ∧ e.2.tokens.minute ≤ e.2.limits.requestsPerMinute) ∧
      (0 ≤ e.2.tokens.hour ∧ e.2.tokens.hour ≤ e.2.limits.requestsPerHour) ∧
      ((-1 : ℚ) < e.2.tokens.burst ∧ e.2.tokens.burst ≤ e.2.limits.burstLimit) := by
  have hInv : LimiterInv 0 (mkRateLimiter []) := by
    refine ⟨⟨⟨60, by norm_num [mkRateLimiter]⟩, ⟨1000, by norm_num [mkRateLimiter]⟩,
      ⟨10, by norm_num [mkRateLimiter]⟩⟩, ?_, ?_⟩ <;> simp [mkRateLimiter]
  have hOrd : timeOrdered 0 [Op.acquire 0 "p", Op.quota 61000 "p"] := by
    simp [timeOrdered, opTime]
  exact ⟨hInv, hOrd, c1_token_bounds_after_ops 0 _ _ hInv hOrd⟩

/-- C2, counterexample: `acquireToken` can return false and still change a
counter from its pre-call value, because the refill step runs before the
admission test. With the per-minute limit overridden to 1: one successful
acquire at 0 ms leaves burst = 9; a failed acquire at 30000 ms (minute
bucket empty) still trickles the burst counter up to 9 + 1/60. -/
theorem c2_all_or_nothing_counterexample :
    ((acquireToken
        (acquireToken
          (setPlatformLimits (mkRateLimiter []) "p" { requestsPerMinute := some 1 })
          0 "p").2
        30000 "p").1 = false) ∧
    (lookupKey
        (acquireToken
          (setPlatformLimits (mkRateLimiter []) "p" { requestsPerMinute := some 1 })
          0 "p").2.platforms "p").map (fun s => s.tokens.burst) = some 9 ∧
    (lookupKey
        (acquireToken
          (acquireToken
            (setPlatformLimits (mkRateLimiter []) "p" { requestsPerMinute := some 1 })
            0 "p").2
          30000 "p").2.platforms "p").map (fun s => s.tokens.burst) =
      some (9 + 1 / 60) ∧
    (9 : ℚ) + 1 / 60 ≠ 9 := by
  norm_num [acquireToken, getPlatformState, setPlatformLimits, mergeLimits,
    mkRateLimiter, lookupKey, insertKey, refillTokens, refillMinute, refillHour,
    refillBurst]

/-- C2 (amended): the debit is all-or-nothing relative to the refilled
state. If `acquireToken` returns false, the stored platform state is
exactly the refilled pre-debit state (the refill itself may have changed
counters, but no debit occurs); if it returns true, the stored state has
all three refilled counters decremented by exactly 1, with no partial
consumption. -/
theorem c2_all_or_nothing (rl : RateLimiter) (now : ℕ) (p : String) :
    ((acquireToken rl now p).1 = false →
      lookupKey (acquireToken rl now p).2.platforms p =
        some (refillTokens now (getPlatformState rl now p).1)) ∧
    ((acquireToken rl now p).1 = true →
      lookupKey (acquireToken rl now p).2.platforms p =
        some { refillTokens now (getPlatformState rl now p).1 with
               tokens :=
                 { minute := (refillTokens now (getPlatformState rl now p).1).tokens.minute - 1
                   hour := (refillTokens now (getPlatformState rl now p).1).tokens.hour - 1
                   burst := (refillTokens now (getPlatformState rl now p).1).tokens.burst - 1 } }) := by
  simp only [acquireToken]
  split
  next =>
    constructor
    · intro hfalse; simp at hfalse
    · intro _; exact lookupKey_insertKey_self _ _ _
  next =>
    constructor
    · intro _; exact lookupKey_insertKey_self _ _ _
    · intro htrue; simp at htrue

/-- Witness for C2 (amended): a fresh limiter admits the first acquire at
instant 0 and stores the three full default counters each debited by 1. -/
theorem c2_all_or_nothing_witness :
    (acquireToken (mkRateLimiter []) 0 "p").1 = true ∧
    lookupKey (acquireToken (mkRateLimiter []) 0 "p").2.platforms "p" =
      some { refillTokens 0 (getPlatformState (mkRateLimiter []) 0 "p").1 with
             tokens :=
               { minute := (refillTokens 0 (getPlatformState (mkRateLimiter []) 0 "p").1).tokens.minute - 1
                 hour := (refillTokens 0 (getPlatformState (mkRateLimiter []) 0 "p").1).tokens.hour - 1
                 burst := (refillTokens 0 (getPlatformState (mkRateLimiter []) 0 "p").1).tokens.burst - 1 } } := by
  have hacq : (acquireToken (mkRateLimiter []) 0 "p").1 = true := by
    norm_num [acquireToken, getPlatformState, mkRateLimiter, lookupKey, insertKey,
      refillTokens, refillMinute, refillHour, refillBurst]
  exact ⟨hacq, (c2_all_or_nothing (mkRateLimiter []) 0 "p").2 hacq⟩

lemma refillMinute_burst_limits (now : ℕ) (s : PlatformState) :
    (refillMinute now s).tokens.burst = s.tokens.burst ∧
    (refillMinute now s).limits = s.limits := by
  simp only [refillMinute]
  split <;> simp

lemma refillHour_burst_limits (now : ℕ) (s : PlatformState) :
    (refillHour now s).tokens.burst = s.tokens.burst ∧
    (refillHour now s).limits = s.limits := by
  simp only [refillHour]
  split <;> simp

/-- C3, counterexample: full burst capacity is NOT restored over 5
minutes. From a drained burst bucket with default limits (burstLimit 10),
a single refill after exactly 5 minutes (300000 ms) credits
5 * (10/300) = 1/6 of a token, not the full capacity of 10: the
`burstLimit / 300` rate is per elapsed minute, so full restoration takes
300 minutes. -/
theorem c3_burst_refill_counterexample :
    (refillTokens 300000
        { limits := { requestsPerMinute := 60, requestsPerHour := 1000, burstLimit := 10 }
          tokens := { minute := 60, hour := 1000, burst := 0 }
          lastRefill := { minute := 0, hour := 0 } }).tokens.burst = 1 / 6 ∧
    (1 / 6 : ℚ) ≠ 10 := by
  norm_num [refillTokens, refillMinute, refillHour, refillBurst]

/-- C3 (amended): on every call to the refill routine with a monotone
clock and an in-cap burst counter, the burst counter is credited at rate
`burstLimit / 300` tokens per elapsed minute, using the same
elapsed-minutes-since-`lastRefill.minute` quantity as the minute-window
calculation even when the minute boundary did not trigger a minute
refill, capped at `burstLimit`; consequently a non-negative burst balance
is fully restored once 300 elapsed minutes (18000000 ms, i.e. 5 hours,
not 5 minutes) have passed since `lastRefill.minute`. -/
theorem c3_burst_trickle (s : PlatformState) (now : ℕ)
    (hlast : s.lastRefill.minute ≤ now)
    (hcap : s.tokens.burst ≤ s.limits.burstLimit)
    (hL : 0 ≤ s.limits.burstLimit) :
    (refillTokens now s).tokens.burst =
      min s.limits.burstLimit
        (s.tokens.burst +
          ((now : ℚ) - (s.lastRefill.minute : ℚ)) / 60000 * (s.limits.burstLimit / 300)) ∧
    (0 ≤ s.tokens.burst → 18000000 ≤ (now : ℚ) - (s.lastRefill.minute : ℚ) →
      (refillTokens now s).tokens.burst = s.limits.burstLimit) := by
  have hms0 : (0 : ℚ) ≤ ((now : ℚ) - (s.lastRefill.minute : ℚ)) / 60000 := by
    apply div_nonneg _ (by norm_num)
    rw [sub_nonneg]
    exact_mod_cast hlast
  have hrate : (0 : ℚ) ≤
      ((now : ℚ) - (s.lastRefill.minute : ℚ)) / 60000 * (s.limits.burstLimit / 300) :=
    mul_nonneg hms0 (div_nonneg hL (by norm_num))
  have hmain : (refillTokens now s).tokens.burst =
      min s.limits.burstLimit
        (s.tokens.burst +
          ((now : ℚ) - (s.lastRefill.minute : ℚ)) / 60000 * (s.limits.burstLimit / 300)) := by
    obtain ⟨hb1, hl1⟩ := refillMinute_burst_limits now s
    obtain ⟨hb2, hl2⟩ := refillHour_burst_limits now (refillMinute now s)
    simp only [refillTokens, refillBurst, hb1, hb2, hl1, hl2]
    split
    next => rfl
    next hno =>
      have hb : s.tokens.burst = s.limits.burstLimit := le_antisymm hcap (not_lt.mp hno)
      rw [hb2, hb1, hb]
      exact (min_eq_left (le_add_of_nonneg_right hrate)).symm
  refine ⟨hmain, fun hb0 helapsed => ?_⟩
  rw [hmain]
  apply min_eq_left
  have h300 : (300 : ℚ) ≤ ((now : ℚ) - (s.lastRefill.minute : ℚ)) / 60000 := by
    rw [le_div_iff₀ (by norm_num)]
    linarith
  have hdivL : (0 : ℚ) ≤ s.limits.burstLimit / 300 := div_nonneg hL (by norm_num)
  have hfull : s.limits.burstLimit ≤
      ((now : ℚ) - (s.lastRefill.minute : ℚ)) / 60000 * (s.limits.burstLimit / 300) := by
    have hmul := mul_le_mul_of_nonneg_right h300 hdivL
    calc s.limits.burstLimit = 300 * (s.limits.burstLimit / 300) := by ring
    _ ≤ _ := hmul
  linarith

/-- Witness for C3 (amended): a half-drained default-limit state 30000 ms
after its last minute refill receives exactly 30000/60000 * (10/300) =
1/60 burst tokens. -/
theorem c3_burst_trickle_witness :
    (refillTokens 30000
        { limits := { requestsPerMinute := 60, requestsPerHour := 1000, burstLimit := 10 }
          tokens := { minute := 60, hour := 1000, burst := 4 }
          lastRefill := { minute := 0, hour := 0 } }).tokens.burst =
      min (10 : ℚ) (4 + ((30000 : ℕ) : ℚ) / 60000 * (10 / 300)) ∧
    (refillTokens 30000
        { limits := { requestsPerMinute := 60, requestsPerHour := 1000, burstLimit := 10 }
          tokens := { minute := 60, hour := 1000, burst := 4 }
          lastRefill := { minute := 0, hour := 0 } }).tokens.burst = 4 + 1 / 60 := by
  have h := c3_burst_trickle
    { limits := { requestsPerMinute := 60, requestsPerHour := 1000, burstLimit := 10 }
      tokens := { minute := 60, hour := 1000, burst := 4 }
      lastRefill := { minute := 0, hour := 0 } }
    30000 (by norm_num) (by norm_num) (by norm_num)
  have h1 := h.1
  refine ⟨by simpa using h1, ?_⟩
  rw [h1]
  norm_num

lemma refillHour_minute_fields (now : ℕ) (s : PlatformState) :
    (refillHour now s).tokens.minute = s.tokens.minute ∧
    (refillHour now s).lastRefill.minute = s.lastRefill.minute := by
  simp only [refillHour]
  split <;> simp

lemma refillBurst_minute_fields (ms : ℚ) (s : PlatformState) :
    (refillBurst ms s).tokens.minute = s.tokens.minute ∧
    (refillBurst ms s).lastRefill.minute = s.lastRefill.minute := by
  simp only [refillBurst]
  split <;> simp

lemma refillTokens_minute_fields (now : ℕ) (s : PlatformState) :
    (refillTokens now s).tokens.minute = (refillMinute now s).tokens.minute ∧
    (refillTokens now s).lastRefill.minute = (refillMinute now s).lastRefill.minute := by
  simp only [refillTokens]
  exact ⟨((refillBurst_minute_fields _ _).1).trans ((refillHour_minute_fields _ _).1),
    ((refillBurst_minute_fields _ _).2).trans ((refillHour_minute_fields _ _).2)⟩

/-- C7: with `requestsPerMinute = 60` and a fully drained minute bucket,
a refill 30000 ms after `lastRefill.minute` adds zero minute tokens and
leaves `lastRefill.minute` unchanged (whole-minute jumps only), while a
refill 61000 ms after adds floor(61/60 * 60) = 61 tokens capped at the
limit of 60 and resets `lastRefill.minute` to the current instant. -/
theorem c7_minute_granularity (s : PlatformState) (t : ℕ)
    (hrpm : s.limits.requestsPerMinute = 60)
    (hmin : s.tokens.minute = 0)
    (hlast : s.lastRefill.minute = t) :
    ((refillTokens (t + 30000) s).tokens.minute = 0 ∧
     (refillTokens (t + 30000) s).lastRefill.minute = t) ∧
    ((refillTokens (t + 61000) s).tokens.minute = 60 ∧
     (refillTokens (t + 61000) s).lastRefill.minute = t + 61000) := by
  constructor
  · have h1 := refillTokens_minute_fields (t + 30000) s
    have hms : (((t + 30000 : ℕ) : ℚ) - (s.lastRefill.minute : ℚ)) / 60000 = 1 / 2 := by
      rw [hlast]
      push_cast
      ring
    rw [h1.1, h1.2]
    simp only [refillMinute, hms]
    norm_num [hmin, hlast]
  · have h1 := refillTokens_minute_fields (t + 61000) s
    have hms : (((t + 61000 : ℕ) : ℚ) - (s.lastRefill.minute : ℚ)) / 60000 = 61 / 60 := by
      rw [hlast]
      push_cast
      ring
    rw [h1.1, h1.2]
    simp only [refillMinute, hms]
    rw [hrpm, hmin]
    norm_num

/-- Witness for C7 at a concrete drained default-limit state. -/
theorem c7_minute_granularity_witness :
    ((refillTokens 30000
        { limits := { requestsPerMinute := 60, requestsPerHour := 1000, burstLimit := 10 }
          tokens := { minute := 0, hour := 1000, burst := 10 }
          lastRefill := { minute := 0, hour := 0 } }).tokens.minute = 0 ∧
     (refillTokens 30000
        { limits := { requestsPerMinute := 60, requestsPerHour := 1000, burstLimit := 10 }
          tokens := { minute := 0, hour := 1000, burst := 10 }
          lastRefill := { minute := 0, hour := 0 } }).lastRefill.minute = 0) ∧
    ((refillTokens 61000
        { limits := { requestsPerMinute := 60, requestsPerHour := 1000, burstLimit := 10 }
          tokens := { minute := 0, hour := 1000, burst := 10 }
          lastRefill := { minute := 0, hour := 0 } }).tokens.minute = 60 ∧
     (refillTokens 61000
        { limits := { requestsPerMinute := 60, requestsPerHour := 1000, burstLimit := 10 }
          tokens := { minute := 0, hour := 1000, burst := 10 }
          lastRefill := { minute := 0, hour := 0 } }).lastRefill.minute = 61000) :=
  c7_minute_granularity
    { limits := { requestsPerMinute := 60, requestsPerHour := 1000, burstLimit := 10 }
      tokens := { minute := 0, hour := 1000, burst := 10 }
      lastRefill := { minute := 0, hour := 0 } }
    0 (by norm_num) (by norm_num) (by norm_num)

/-- C8: `reset()` followed immediately by `getRemainingQuota(platform)`
returns the full capacity of all three windows for any platform
(including platforms tracked before the reset), taken from the surviving
override for that platform if one exists, else from the default limits. -/
theorem c8_reset_restores_full_quota (rl : RateLimiter) (now : ℕ) (platform : String) :
    (getRemainingQuota (RateLimiter.reset rl) now platform).1 =
      { minute := ((lookupKey rl.platformLimits platform).getD rl.defaultLimits).requestsPerMinute
        hour := ((lookupKey rl.platformLimits platform).getD rl.defaultLimits).requestsPerHour
        burst := ((lookupKey rl.platformLimits platform).getD rl.defaultLimits).burstLimit } := by
  norm_num [getRemainingQuota, RateLimiter.reset, getPlatformState, lookupKey,
    refillTokens, refillMinute, refillHour, refillBurst, sub_self]

/-- A limiter that already tracks platform "p" with a fresh default-limit
state, obtained by a quota query at instant 0. -/
def c9Limiter : RateLimiter := (getRemainingQuota (mkRateLimiter []) 0 "p").2

/-- Override patch lowering only the burst ceiling to 2. -/
def c9Patch : LimitsPatch := { burstLimit := some 2 }

/-- The state stored for "p" inside `c9Limiter`. -/
def c9State : PlatformState :=
  { limits := { requestsPerMinute := 60, requestsPerHour := 1000, burstLimit := 10 }
    tokens := { minute := 60, hour := 1000, burst := 10 }
    lastRefill := { minute := 0, hour := 0 } }

/-- C9, counterexample: after lowering the burst ceiling to 2 on a live
state holding 10 burst tokens, a later refill does NOT clamp the burst
counter down: the burst block of the refill routine is skipped whenever
the counter is at or above the ceiling, so even a triggered
minute-boundary refill at 61000 ms leaves burst = 10 > 2. -/
theorem c9_clamp_counterexample :
    (getRemainingQuota (setPlatformLimits c9Limiter "p" c9Patch) 61000 "p").1.burst = 10 ∧
    ¬ ((10 : ℚ) ≤ 2) := by
  norm_num [c9Limiter, c9Patch, getRemainingQuota, setPlatformLimits, mergeLimits,
    getPlatformState, mkRateLimiter, lookupKey, insertKey, refillTokens,
    refillMinute, refillHour, refillBurst]

lemma refillMinute_hour_fields (now : ℕ) (s : PlatformState) :
    (refillMinute now s).tokens.hour = s.tokens.hour ∧
    (refillMinute now s).lastRefill.hour = s.lastRefill.hour ∧
    (refillMinute now s).limits = s.limits := by
  simp only [refillMinute]
  split <;> simp

lemma refillBurst_hour_field (ms : ℚ) (s : PlatformState) :
    (refillBurst ms s).tokens.hour = s.tokens.hour := by
  simp only [refillBurst]
  split <;> simp

/-- C9 (amended): `setPlatformLimits(platform, limits)` stores the given
fields merged over the default limits (not over any previously set
override), and if a state already exists for that platform it replaces
that state's limits while leaving the token counters and refill stamps
unchanged; minute and hour counts above a lowered ceiling are clamped
down by the cap of the next triggered refill of their window, but the
burst block of the refill routine is skipped whenever the burst counter
is at or above its ceiling, so an above-ceiling burst count is never
rescaled by refill. -/
theorem c9_set_platform_limits (rl : RateLimiter) (p : String) (patch : LimitsPatch) :
    (lookupKey (setPlatformLimits rl p patch).platformLimits p =
      some (mergeLimits rl.defaultLimits patch)) ∧
    (∀ s, lookupKey rl.platforms p = some s →
      lookupKey (setPlatformLimits rl p patch).platforms p =
        some { s with limits := mergeLimits rl.defaultLimits patch }) ∧
    (∀ s1 : PlatformState, ∀ now : ℕ,
      ((now : ℚ) - (s1.lastRefill.minute : ℚ)) / 60000 ≥ 1 →
      (refillTokens now s1).tokens.minute ≤ s1.limits.requestsPerMinute) ∧
    (∀ s1 : PlatformState, ∀ now : ℕ,
      ((now : ℚ) - (s1.lastRefill.hour : ℚ)) / 3600000 ≥ 1 →
      (refillTokens now s1).tokens.hour ≤ s1.limits.requestsPerHour) ∧
    (∀ s1 : PlatformState, ∀ ms : ℚ, s1.limits.burstLimit ≤ s1.tokens.burst →
      (refillBurst ms s1).tokens.burst = s1.tokens.burst) := by
  refine ⟨?_, ?_, ?_, ?_, ?_⟩
  · simp only [setPlatformLimits]
    split <;> exact lookupKey_insertKey_self _ _ _
  · intro s h
    simp only [setPlatformLimits, h]
    exact lookupKey_insertKey_self _ _ _
  · intro s1 now hcond
    rw [(refillTokens_minute_fields now s1).1]
    simp only [refillMinute]
    rw [if_pos hcond]
    exact min_le_left _ _
  · intro s1 now hcond
    have h2 := refillMinute_hour_fields now s1
    simp only [refillTokens]
    rw [refillBurst_hour_field]
    simp only [refillHour, h2.2.1, h2.2.2]
    rw [if_pos hcond]
    exact min_le_left _ _
  · intro s1 ms h
    simp only [refillBurst]
    rw [if_neg (not_lt.mpr h)]

/-- A state whose minute, hour and burst counters all sit above freshly
lowered ceilings, with hour-old refill stamps. -/
def c9ClampState : PlatformState :=
  { limits := { requestsPerMinute := 30, requestsPerHour := 400, burstLimit := 2 }
    tokens := { minute := 60, hour := 1000, burst := 10 }
    lastRefill := { minute := 0, hour := 0 } }

/-- Witness for C9 (amended) on `c9Limiter`: the merged override is
stored, the live state keeps its counters, a triggered refill one hour
later clamps the above-ceiling minute and hour counters down to their
new ceilings, and the at-ceiling burst counter is untouched by the burst
refill block. -/
theorem c9_set_platform_limits_witness :
    (lookupKey (setPlatformLimits c9Limiter "p" c9Patch).platformLimits "p" =
      some (mergeLimits c9Limiter.defaultLimits c9Patch)) ∧
    (lookupKey (setPlatformLimits c9Limiter "p" c9Patch).platforms "p" =
      some { c9State with limits := mergeLimits c9Limiter.defaultLimits c9Patch }) ∧
    ((refillTokens 3600000 c9ClampState).tokens.minute ≤
      c9ClampState.limits.requestsPerMinute) ∧
    ((refillTokens 3600000 c9ClampState).tokens.hour ≤
      c9ClampState.limits.requestsPerHour) ∧
    ((refillBurst (1 / 2) c9State).tokens.burst = c9State.tokens.burst) := by
  have h := c9_set_platform_limits c9Limiter "p" c9Patch
  refine ⟨h.1, h.2.1 c9State ?_, h.2.2.1 c9ClampState 3600000 ?_,
    h.2.2.2.1 c9ClampState 3600000 ?_, h.2.2.2.2 c9State (1 / 2) ?_⟩
  · norm_num [c9Limiter, c9State, getRemainingQuota, getPlatformState, mkRateLimiter,
      lookupKey, insertKey, refillTokens, refillMinute, refillHour, refillBurst]
  · norm_num [c9ClampState]
  · norm_num [c9ClampState]
  · norm_num [c9State]

/-- A limiter tracking platform "p" with a drained minute bucket and
stale refill stamps, for observing the `getStats` side effect. -/
def c10Limiter : RateLimiter :=
  { platforms :=
      [("p", { limits := { requestsPerMinute := 60, requestsPerHour := 1000, burstLimit := 10 }
               tokens := { minute := 0, hour := 500, burst := 10 }
               lastRefill := { minute := 0, hour := 0 } })]
    platformLimits := []
    defaultLimits := { requestsPerMinute := 60, requestsPerHour := 1000, burstLimit := 10 } }

/-- C10 (implicit): `getStats()` refills every tracked platform's state
before reporting it — the stored map becomes the refilled map and the
report is read off the refilled states — so this query mutates limiter
state: concretely, on a drained minute bucket with a 61000 ms stale
stamp, calling `getStats` raises the stored minute counter from 0 to 60
and advances the stored `lastRefill.minute` from 0 to 61000. -/
theorem c10_get_stats_refills (rl : RateLimiter) (now : ℕ) :
    ((getStats rl now).2.platforms =
      rl.platforms.map (fun e => (e.1, refillTokens now e.2))) ∧
    ((getStats rl now).1 =
      rl.platforms.map (fun e =>
        (e.1, { limits := (refillTokens now e.2).limits
                remaining := (refillTokens now e.2).tokens
                lastRefill := (refillTokens now e.2).lastRefill }))) ∧
    ((lookupKey (getStats c10Limiter 61000).2.platforms "p").map
        (fun s => s.tokens.minute) = some 60 ∧
     (lookupKey c10Limiter.platforms "p").map (fun s => s.tokens.minute) = some 0 ∧
     (lookupKey (getStats c10Limiter 61000).2.platforms "p").map
        (fun s => s.lastRefill.minute) = some 61000 ∧
     (lookupKey c10Limiter.platforms "p").map (fun s => s.lastRefill.minute) = some 0) := by
  refine ⟨rfl, ?_, ?_⟩
  · simp [getStats, List.map_map, Function.comp]
  · norm_num [c10Limiter, getStats, lookupKey, refillTokens, refillMinute,
      refillHour, refillBurst]

/-- The exact list of pipeline stages `checkAction` runs: legal always,
platform rules when a platform is given, rate limit when a platform is
given and a limiter is configured, disclosure when the action requires
one. Stages whose precondition fails are absent, not passing. -/
def checksList (e : ComplianceEngine) (now : ℕ) (a : Action) (ctx : Context) :
    List ComplianceCheck :=
  [checkLegal a] ++
  (match ctx.platform with
   | some p => [checkPlatformRules p a]
   | none => []) ++
  (match ctx.platform, e.rateLimiter with
   | some p, some rl => [(checkRateLimit (some rl) now p).1]
   | _, _ => []) ++
  (if requiresDisclosure a then [checkDisclosure a] else [])

/-- The rate limiter held by the engine after a `checkAction` run. -/
def rlAfter (e : ComplianceEngine) (now : ℕ) (ctx : Context) : Option RateLimiter :=
  match ctx.platform, e.rateLimiter with
  | some p, some rl => (checkRateLimit (some rl) now p).2
  | _, _ => e.rateLimiter

lemma checkAction_spec (e : ComplianceEngine) (now : ℕ) (a : Action) (ctx : Context) :
    (checkAction e now a ctx).1.result =
      { passed := (checksList e now a ctx).all (fun c => c.passed)
        checks := checksList e now a ctx
        action := a.type
        timestamp := now } ∧
    (checkAction e now a ctx).1.isBlocked =
      (e.strictMode && !(checksList e now a ctx).all (fun c => c.passed)) ∧
    (checkAction e now a ctx).2.rateLimiter = rlAfter e now ctx ∧
    (checkAction e now a ctx).2.strictMode = e.strictMode ∧
    ((checksList e now a ctx).all (fun c => c.passed) = true →
      (checkAction e now a ctx).2.violations = e.violations) ∧
    ((checksList e now a ctx).all (fun c => c.passed) = false →
      (checkAction e now a ctx).2.violations =
        e.violations ++
          [{ passed := (checksList e now a ctx).all (fun c => c.passed)
             checks := checksList e now a ctx
             action := a.type
             timestamp := now }]) := by
  rcases hp : ctx.platform with _ | p <;> rcases hrl : e.rateLimiter with _ | rl <;>
    simp only [checkAction, checksList, rlAfter, hp, hrl] <;>
    split <;> split <;> try split
  all_goals
    simp_all [CheckOutcome.result, CheckOutcome.isBlocked]
  all_goals
    simp only [Bool.eq_false_iff, ne_eq] at *
    tauto

lemma checkRateLimit_category (rlOpt : Option RateLimiter) (now : ℕ) (p : String) :
    (checkRateLimit rlOpt now p).1.category = "rateLimit" := by
  rcases rlOpt with _ | rl
  · rfl
  · simp only [checkRateLimit]
    split <;> rfl

lemma checkRateLimit_acquired {rl : RateLimiter} {now : ℕ} {p : String}
    (hacq : (acquireToken rl now p).1 = true) :
    (checkRateLimit (some rl) now p).2 = some (acquireToken rl now p).2 := by
  simp [checkRateLimit, hacq]

lemma checkLegal_unauthorized {a : Action} (h : a.type = "unauthorized-access") :
    (checkLegal a).passed = false := by
  by_cases hf : a.fraudulent <;> simp [checkLegal, h, hf]

lemma checkDisclosure_fails {a : Action} (hreq : requiresDisclosure a = true)
    (hnd : a.hasDisclosure = false) : (checkDisclosure a).passed = false := by
  simp [checkDisclosure, hreq, hnd]

lemma checksList_all_false_of_legal {e : ComplianceEngine} {now : ℕ} {a : Action}
    {ctx : Context} (h : (checkLegal a).passed = false) :
    (checksList e now a ctx).all (fun c => c.passed) = false := by
  simp [checksList, h]

/-- C4: the overall `passed` flag equals the AND of the passed flags of
exactly the checks that ran; stages whose precondition did not hold are
absent from the checks list and no stage is skipped on an earlier
failure (the list always has the full applicable shape); in particular an
action passing the legal, platform and disclosure checks but refused by
the rate limiter yields `passed = false` with exactly one failing check,
of category "rateLimit". -/
theorem c4_and_aggregation (e : ComplianceEngine) (now : ℕ) (a : Action) (ctx : Context) :
    ((checkAction e now a ctx).1.result.passed =
      (checkAction e now a ctx).1.result.checks.all (fun c => c.passed)) ∧
    ((checkAction e now a ctx).1.result.checks = checksList e now a ctx) ∧
    (∀ p rl, ctx.platform = some p → e.rateLimiter = some rl →
      (checkLegal a).passed = true →
      (checkPlatformRules p a).passed = true →
      (requiresDisclosure a = true → (checkDisclosure a).passed = true) →
      (checkRateLimit (some rl) now p).1.passed = false →
      (checkAction e now a ctx).1.result.passed = false ∧
      (checkAction e now a ctx).1.result.checks.filter (fun c => !c.passed) =
        [(checkRateLimit (some rl) now p).1] ∧
      (checkRateLimit (some rl) now p).1.category = "rateLimit") := by
  obtain ⟨hres, _⟩ := checkAction_spec e now a ctx
  refine ⟨by rw [hres], by rw [hres], ?_⟩
  intro p rl hp hrl hL hP hD hR
  rw [hres]
  refine ⟨?_, ?_, checkRateLimit_category _ _ _⟩
  · by_cases hd : requiresDisclosure a = true
    · simp [checksList, hp, hrl, hd, hL, hP, hR, hD hd]
    · simp only [Bool.not_eq_true] at hd
      simp [checksList, hp, hrl, hd, hL, hP, hR]
  · by_cases hd : requiresDisclosure a = true
    · simp [checksList, hp, hrl, hd, hL, hP, hR, hD hd, List.filter_append]
    · simp only [Bool.not_eq_true] at hd
      simp [checksList, hp, hrl, hd, hL, hP, hR, List.filter_append]

/-- A limiter tracking platform "p" with all three buckets empty at
instant 0, to refuse the next acquisition. -/
def c4Limiter : RateLimiter :=
  { platforms :=
      [("p", { limits := { requestsPerMinute := 1, requestsPerHour := 1, burstLimit := 1 }
               tokens := { minute := 0, hour := 0, burst := 0 }
               lastRefill := { minute := 0, hour := 0 } })]
    platformLimits := []
    defaultLimits := { requestsPerMinute := 60, requestsPerHour := 1000, burstLimit := 10 } }

/-- A lenient engine holding `c4Limiter`. -/
def c4Engine : ComplianceEngine :=
  { strictMode := false, rateLimiter := some c4Limiter, violations := [] }

/-- Witness for C4: an ordinary "api-call" on platform "p" passes legal
and platform checks, needs no disclosure, is refused by the drained rate
limiter, and the aggregate fails with the rate-limit check as the single
failing entry. -/
theorem c4_and_aggregation_witness :
    (checkAction c4Engine 0 { type := "api-call" } { platform := some "p" }).1.result.passed
        = false ∧
    (checkAction c4Engine 0 { type := "api-call" }
        { platform := some "p" }).1.result.checks.filter (fun c => !c.passed) =
      [(checkRateLimit (some c4Limiter) 0 "p").1] ∧
    (checkRateLimit (some c4Limiter) 0 "p").1.category = "rateLimit" := by
  have hR : (checkRateLimit (some c4Limiter) 0 "p").1.passed = false := by
    norm_num [checkRateLimit, acquireToken, getPlatformState, getRemainingQuota,
      c4Limiter, lookupKey, insertKey, refillTokens, refillMinute, refillHour,
      refillBurst]
  exact (c4_and_aggregation c4Engine 0 { type := "api-call" } { platform := some "p" }).2.2
    "p" c4Limiter rfl rfl (by decide) (by decide) (by decide) hR

/-- C5: `checkAction` on an action of type "unauthorized-access" fails
the legal check, so the aggregate is `passed = false`; the outcome is the
blocking error exactly when the engine is in strict mode (lenient mode
returns the same failed result without the error); the carried result
aggregates the full pipeline (its checks list has the complete applicable
shape); and in both modes the failed result is appended to the violations
log and appears in `generateComplianceReport().violations`. -/
theorem c5_strict_mode_throw (e : ComplianceEngine) (now ts : ℕ) (a : Action)
    (ctx : Context) (h : a.type = "unauthorized-access") :
    (checkAction e now a ctx).1.result.passed = false ∧
    (checkAction e now a ctx).1.isBlocked = e.strictMode ∧
    (checkAction e now a ctx).1.result.checks = checksList e now a ctx ∧
    (checkAction e now a ctx).2.violations =
      e.violations ++ [(checkAction e now a ctx).1.result] ∧
    (generateComplianceReport (checkAction e now a ctx).2 ts).violations =
      e.violations ++ [(checkAction e now a ctx).1.result] := by
  obtain ⟨hres, hblk, _, _, _, hviol⟩ := checkAction_spec e now a ctx
  have hall : (checksList e now a ctx).all (fun c => c.passed) = false :=
    checksList_all_false_of_legal (checkLegal_unauthorized h)
  have hv := hviol hall
  refine ⟨by rw [hres]; exact hall, ?_, by rw [hres], ?_, ?_⟩
  · rw [hblk, hall]
    simp
  · rw [hv, hres]
  · rw [generateComplianceReport, hv, hres]

/-- Witness for C5, in both modes: a strict engine blocks the
unauthorized-access action and logs it; a lenient engine does not block
and still logs it. -/
theorem c5_strict_mode_throw_witness :
    ((checkAction { strictMode := true, rateLimiter := none, violations := [] } 0
        { type := "unauthorized-access" } {}).1.isBlocked = true ∧
     (checkAction { strictMode := true, rateLimiter := none, violations := [] } 0
        { type := "unauthorized-access" } {}).1.result.passed = false ∧
     (generateComplianceReport
        (checkAction { strictMode := true, rateLimiter := none, violations := [] } 0
          { type := "unauthorized-access" } {}).2 0).violations =
       [(checkAction { strictMode := true, rateLimiter := none, violations := [] } 0
          { type := "unauthorized-access" } {}).1.result]) ∧
    ((checkAction { strictMode := false, rateLimiter := none, violations := [] } 0
        { type := "unauthorized-access" } {}).1.isBlocked = false ∧
     (checkAction { strictMode := false, rateLimiter := none, violations := [] } 0
        { type := "unauthorized-access" } {}).1.result.passed = false ∧
     (generateComplianceReport
        (checkAction { strictMode := false, rateLimiter := none, violations := [] } 0
          { type := "unauthorized-access" } {}).2 0).violations =
       [(checkAction { strictMode := false, rateLimiter := none, violations := [] } 0
          { type := "unauthorized-access" } {}).1.result]) := by
  have hs := c5_strict_mode_throw
    { strictMode := true, rateLimiter := none, violations := [] } 0 0
    { type := "unauthorized-access" } {} rfl
  have hl := c5_strict_mode_throw
    { strictMode := false, rateLimiter := none, violations := [] } 0 0
    { type := "unauthorized-access" } {} rfl
  exact ⟨⟨hs.2.1, hs.1, by simpa using hs.2.2.2.2⟩,
    ⟨hl.2.1, hl.1, by simpa using hl.2.2.2.2⟩⟩

/-- C6: when the rate-limit stage succeeds (debiting one token) and the
later disclosure stage fails, the aggregate is `passed = false` and the
debited token is not refunded: the engine's limiter after `checkAction`
is exactly the post-acquire limiter. -/
theorem c6_no_refund (e : ComplianceEngine) (now : ℕ) (a : Action) (ctx : Context)
    (p : String) (rl : RateLimiter)
    (hp : ctx.platform = some p) (hrl : e.rateLimiter = some rl)
    (hacq : (acquireToken rl now p).1 = true)
    (hreq : requiresDisclosure a = true)
    (hnd : a.hasDisclosure = false) :
    (checkAction e now a ctx).1.result.passed = false ∧
    (checkAction e now a ctx).2.rateLimiter = some (acquireToken rl now p).2 := by
  obtain ⟨hres, _, hrla, _, _, _⟩ := checkAction_spec e now a ctx
  constructor
  · rw [hres]
    have hdf := checkDisclosure_fails hreq hnd
    simp [checksList, hp, hrl, hreq, hdf]
  · rw [hrla, rlAfter, hp, hrl]
    exact checkRateLimit_acquired hacq

/-- Witness for C6: a fresh default limiter admits the acquire for an
undisclosed affiliate-link action; the pipeline fails on disclosure and
the spent token stays spent. -/
theorem c6_no_refund_witness :
    (checkAction { strictMode := false, rateLimiter := some (mkRateLimiter []), violations := [] }
        0 { type := "post-affiliate-link" } { platform := some "p" }).1.result.passed = false ∧
    (checkAction { strictMode := false, rateLimiter := some (mkRateLimiter []), violations := [] }
        0 { type := "post-affiliate-link" } { platform := some "p" }).2.rateLimiter =
      some (acquireToken (mkRateLimiter []) 0 "p").2 :=
  c6_no_refund
    { strictMode := false, rateLimiter := some (mkRateLimiter []), violations := [] }
    0 { type := "post-affiliate-link" } { platform := some "p" } "p" (mkRateLimiter [])
    rfl rfl
    (by norm_num [acquireToken, getPlatformState, mkRateLimiter, lookupKey, insertKey,
      refillTokens, refillMinute, refillHour, refillBurst])
    (by decide)
    rfl

end MoneyMachine
